import Mathlib

/-!
# Verification of the open-rocket-wind profile code

Shallow embedding of the wind-profile fusion, band interpolation, drift
projection, CSV row generation and coordinate validation found in
`src/wind.js`, `src/main.js` and the geodesy module, together with proofs
of the behavioural claims made by the specification.

Numbers are modelled by `ℚ` (the JavaScript arithmetic used by these code
paths is `+ - * /`, `Math.abs` and comparisons, which are exact here);
the geodesy step, whose source uses trigonometry, is modelled over `ℝ`.
JavaScript's special values (`NaN`, `Infinity`) are modelled by the
dedicated type `JsNum` in the code paths that test for them.
-/

namespace OpenRocketWind

/-- A JavaScript number as seen by the validation code paths: either a
finite value or one of the special values `NaN`, `Infinity`, `-Infinity`.
Finite values are modelled exactly by `ℚ`. -/
inductive JsNum where
  | nan : JsNum
  | posInf : JsNum
  | negInf : JsNum
  | num (q : ℚ) : JsNum
deriving DecidableEq

namespace JsNum

/-- JavaScript's global `isNaN` on a number argument: true exactly for `NaN`
(note `isNaN(Infinity)` is `false`). -/
def jsIsNaN : JsNum → Bool
  | nan => true
  | _ => false

/-- JavaScript's `<` on numbers: any comparison involving `NaN` is false;
`-Infinity` is below and `Infinity` above every finite value. -/
def jsLt : JsNum → JsNum → Bool
  | nan, _ => false
  | _, nan => false
  | negInf, negInf => false
  | negInf, _ => true
  | _, negInf => false
  | posInf, _ => false
  | num _, posInf => true
  | num a, num b => decide (a < b)

/-- JavaScript's `>` on numbers, defined by flipping `jsLt`. -/
def jsGt (a b : JsNum) : Bool := jsLt b a

/-- The finite value of a `JsNum`.  Only used on code paths that the guards
of the source restrict to finite inputs; the value returned on the special
values is irrelevant to every claim proved below. -/
def toReal : JsNum → ℝ
  | num q => (q : ℝ)
  | _ => 0

end JsNum

/-- JavaScript's `Math.abs` on an exact rational. -/
def qabs (x : ℚ) : ℚ := if x < 0 then -x else x

/-- `WindAtAltitude` (src/wind.js lines 9-72): a wind sample, storing an
altitude in feet, a wind speed in knots, and a direction in degrees from
North.  The constructor's `isNaN` guards are vacuous here because the
fields are modelled by `ℚ`, which has no `NaN`. -/
structure WindAtAltitude where
  altitude : ℚ
  windSpeed : ℚ
  windDirection : ℚ
deriving DecidableEq, Repr

/-- Default sample used by the guarded list accesses below; it is only ever
read behind a bounds check that the source performs first. -/
def defaultWind : WindAtAltitude := ⟨0, 0, 0⟩

/-- Bounds-guarded list access mirroring `windData[i]` after the source's
own bounds check has passed. -/
def nthWind (windData : List WindAtAltitude) (i : ℕ) : WindAtAltitude :=
  windData.getD i defaultWind

/-- Ground wind-speed interpolation of the fusion engine
(src/wind.js lines 501-513, identically src/main.js lines 791-803):
given the bracketing pair `a` (last at-or-below-ground pressure sample) and
`b` (first above-ground pressure sample), interpolate the speed at zero
altitude. -/
def interpGroundSpeed (a b : WindAtAltitude) : ℚ :=
  let groundFrac := qabs a.altitude / (b.altitude - a.altitude)
  let speedDelta := qabs (b.windSpeed - a.windSpeed)
  if speedDelta = 0 then
    b.windSpeed
  else
    groundFrac * speedDelta +
      (if b.windSpeed < a.windSpeed then b.windSpeed else a.windSpeed)

/-- Ground wind-direction interpolation of the fusion engine
(src/wind.js lines 515-536, identically src/main.js lines 805-826):
given the bracketing pair `a`, `b`, interpolate the direction at zero
altitude; when the absolute delta is at least 180 the source first shifts
both directions by -180 and adds 180 back afterwards. -/
def interpGroundDir (a b : WindAtAltitude) : ℚ :=
  let groundFrac := qabs a.altitude / (b.altitude - a.altitude)
  let directionDelta := qabs (b.windDirection - a.windDirection)
  if directionDelta = 0 then
    b.windDirection
  else if directionDelta < 180 then
    (if b.windDirection < a.windDirection then b.windDirection
     else a.windDirection) + groundFrac * directionDelta
  else
    let firstDirection := a.windDirection - 180
    let secondDirection := b.windDirection - 180
    let delta2 := qabs (firstDirection - secondDirection)
    ((if firstDirection < secondDirection then firstDirection
      else secondDirection) + groundFrac * delta2) + 180

/-- The scan of the fusion engine's at-or-below-ground branch
(src/wind.js lines 498-540, identically src/main.js lines 788-830):
starting from the previous sample `prev` (initially `pressureWinds[0]`),
walk the remaining pressure samples looking for the first one with
altitude above zero; on success return the interpolated ground speed and
direction together with the pressure list from that sample onward. -/
def findAboveGround : WindAtAltitude → List WindAtAltitude →
    Option (ℚ × ℚ × List WindAtAltitude)
  | _, [] => none
  | prev, w :: rest =>
    if 0 < w.altitude then
      some (interpGroundSpeed prev w, interpGroundDir prev w, w :: rest)
    else
      findAboveGround w rest

/-- The profile fusion of `getOpenMeteoWindPredictionData`
(src/wind.js lines 462-549; the identical inline copy is
src/main.js lines 753-837).  Combines the near-surface altitude samples and
the upper-air pressure samples into one wind list, and returns that list
together with the recorded ground wind speed and ground wind direction.
The `break` that ends the walk over `altitudeWinds` at the first sample not
strictly below `pressureWinds[0].altitude` is rendered by `takeWhile`. -/
def fuseWinds (altitudeWinds pressureWinds : List WindAtAltitude) :
    List WindAtAltitude × ℚ × ℚ :=
  match pressureWinds with
  | [] => ([], 0, 0)
  | p0 :: rest =>
    if 0 < p0.altitude then
      let below := altitudeWinds.takeWhile (fun w => w.altitude < p0.altitude)
      match below with
      | [] =>
        (⟨0, p0.windSpeed, p0.windDirection⟩ :: p0 :: rest,
          p0.windSpeed, p0.windDirection)
      | a :: _ =>
        (⟨0, a.windSpeed, a.windDirection⟩ :: (below ++ (p0 :: rest)),
          a.windSpeed, a.windDirection)
    else
      match findAboveGround p0 rest with
      | none => ([], 0, 0)
      | some (gs, gd, above) => (⟨0, gs, gd⟩ :: above, gs, gd)

/-- `getWindBandPercentage` (src/wind.js lines 740-759): fractional
position of the rocket inside a wind band, with `-1` as the explicit
sentinel for an out-of-bounds index, an altitude outside the band, or a
zero-height band.  The index is an integer because the source guards
against negative indices. -/
def getWindBandPercentage (rocketAltitude : ℚ)
    (windData : List WindAtAltitude) (floorIndex : ℤ) : ℚ :=
  if floorIndex < 0 ∨ (windData.length : ℤ) ≤ floorIndex + 1 then -1
  else
    let altitudeFloor := (nthWind windData floorIndex.toNat).altitude
    let altitudeCeiling := (nthWind windData (floorIndex.toNat + 1)).altitude
    if rocketAltitude < altitudeFloor ∨ altitudeCeiling < rocketAltitude then -1
    else
      let rangeHeight := qabs (altitudeCeiling - altitudeFloor)
      if rangeHeight = 0 then -1
      else qabs (rocketAltitude - altitudeFloor) / rangeHeight

/-- `getAverageWindSpeed` (src/wind.js lines 768-783): the speed reported
for a band is the mean of the floor speed and the speed interpolated at the
fractional position, with `-1` as the sentinel for a bad percentage or
index. -/
def getAverageWindSpeed (bandPercentage : ℚ)
    (windData : List WindAtAltitude) (floorIndex : ℤ) : ℚ :=
  if bandPercentage < 0 ∨ 1 < bandPercentage then -1
  else if floorIndex < 0 ∨ (windData.length : ℤ) ≤ floorIndex + 1 then -1
  else
    let speedFloor := (nthWind windData floorIndex.toNat).windSpeed
    let speedRange :=
      (nthWind windData (floorIndex.toNat + 1)).windSpeed - speedFloor
    let speedAtAltitude := speedFloor + bandPercentage * speedRange
    (speedFloor + speedAtAltitude) / 2

/-- `getAverageWindDirection` (src/wind.js lines 792-816): the direction
reported for a band averages the floor direction with the direction
interpolated at the fractional position, subtracting 360 before halving
when the two are at least 180 apart and normalizing a negative result. -/
def getAverageWindDirection (bandPercentage : ℚ)
    (windData : List WindAtAltitude) (floorIndex : ℤ) : ℚ :=
  if bandPercentage < 0 ∨ 1 < bandPercentage then -1
  else if floorIndex < 0 ∨ (windData.length : ℤ) ≤ floorIndex + 1 then -1
  else
    let directionA := (nthWind windData floorIndex.toNat).windDirection
    let targetDirection := directionA + bandPercentage *
      ((nthWind windData (floorIndex.toNat + 1)).windDirection - directionA)
    let averageDirection := directionA + targetDirection
    if qabs (directionA - targetDirection) < 180 then
      averageDirection / 2
    else
      let adjusted := (averageDirection - 360) / 2
      if adjusted < 0 then adjusted + 360 else adjusted

/-- One data row of the CSV export: the altitude, wind speed and wind
direction values that `saveORWindCSV` writes for a sample (with the default
unit selections, indices 0, under which the source applies no conversion). -/
abbrev CsvRow := ℚ × ℚ × ℚ

/-- The AGL branch of the row loop of `saveORWindCSV`
(src/main.js lines 935-1031, with altitude reference AGL and default
units): each sample's altitude is adjusted by the ground elevation; a
sample that would fall below zero is dropped if it is the last one
(`break`), skipped if the next sample is also below zero (`continue`), and
otherwise replaced by a synthesized zero-altitude row whose speed is
linearly interpolated and whose direction averages the sample's direction
with the interpolated one, subtracting 360 before halving when they are at
least 180 apart. -/
def csvRowsAGL (groundElevation : ℚ) : List WindAtAltitude → List CsvRow
  | [] => []
  | w :: rest =>
    let windAltitude := w.altitude - groundElevation
    if windAltitude < 0 then
      match rest with
      | [] => []
      | w' :: _ =>
        let nextAltitude := w'.altitude - groundElevation
        if nextAltitude < 0 then
          csvRowsAGL groundElevation rest
        else
          let bandFrac := qabs (windAltitude / (nextAltitude - windAltitude))
          let windSpeed := w.windSpeed + bandFrac * (w'.windSpeed - w.windSpeed)
          let directionA := w.windDirection
          let targetDirection :=
            directionA + bandFrac * (w'.windDirection - directionA)
          let averageDirection := directionA + targetDirection
          let windDirection :=
            if qabs (directionA - targetDirection) < 180 then
              averageDirection / 2
            else
              let adjusted := (averageDirection - 360) / 2
              if adjusted < 0 then adjusted + 360 else adjusted
          (0, windSpeed, windDirection) :: csvRowsAGL groundElevation rest
    else
      (windAltitude, w.windSpeed, w.windDirection) ::
        csvRowsAGL groundElevation rest

/-- `GeoLocation`'s constructor (geodesy module lines 24-30): it throws
exactly when one of the coordinates is `NaN` (the only guard is `isNaN`);
otherwise it stores the pair verbatim.  A throw is modelled by `none`. -/
def geoLocationCtor (lat lon : JsNum) : Option (JsNum × JsNum) :=
  if lat.jsIsNaN then none
  else if lon.jsIsNaN then none
  else some (lat, lon)

/-- `getLaunchSiteLocation` (src/main.js lines 62-78): rejects a `NaN` or
out-of-range latitude or longitude, returning `null`, and otherwise
constructs the `GeoLocation`. -/
def getLaunchSiteLocation (latitude longitude : JsNum) :
    Option (JsNum × JsNum) :=
  if latitude.jsIsNaN then none
  else if latitude.jsGt (.num 90) || latitude.jsLt (.num (-90)) then none
  else if longitude.jsIsNaN then none
  else if longitude.jsGt (.num 180) || longitude.jsLt (.num (-180)) then none
  else geoLocationCtor latitude longitude

/-- A coordinate pair as used by the drift projection; the geodesy operates
on real numbers. -/
structure GeoLocation where
  latitude : ℝ
  longitude : ℝ

/-- `feetToMeters` (geodesy module lines 60-62). -/
def feetToMeters (distanceFeet : ℝ) : ℝ := distanceFeet * 0.3048

/-- `degreesToRadians` (geodesy module lines 78-80). -/
noncomputable def degreesToRadians (degrees : ℝ) : ℝ :=
  degrees * Real.pi / 180

/-- `radiansToDegrees` (geodesy module lines 87-89). -/
noncomputable def radiansToDegrees (radians : ℝ) : ℝ :=
  radians * 180 / Real.pi

/-- JavaScript's `Math.atan2(y, x)`: the argument of the complex number
`x + y*i`, valued in `(-pi, pi]`. -/
noncomputable def atan2 (y x : ℝ) : ℝ := Complex.arg ⟨x, y⟩

/-- `moveAlongBearingKilometers` (geodesy module lines 120-138): the
spherical forward geodesic with Earth radius 6371 km; the source mutates
its argument, modelled here by returning the updated location. -/
noncomputable def moveAlongBearingKilometers (geoPosition : GeoLocation)
    (distance bearing : ℝ) : GeoLocation :=
  let distanceKM := distance / 1000
  let angularDistance := distanceKM / 6371
  let bearingRadians := degreesToRadians bearing
  let latitudeRadians := degreesToRadians geoPosition.latitude
  let longitudeRadians := degreesToRadians geoPosition.longitude
  let sinPhi2 := Real.sin latitudeRadians * Real.cos angularDistance +
    Real.cos latitudeRadians * Real.sin angularDistance *
      Real.cos bearingRadians
  let y := Real.sin bearingRadians * Real.sin angularDistance *
    Real.cos latitudeRadians
  let x := Real.cos angularDistance - Real.sin latitudeRadians * sinPhi2
  { latitude := radiansToDegrees (Real.arcsin sinPhi2)
    longitude := radiansToDegrees (longitudeRadians + atan2 y x) }

/-- `driftWithWind` (src/wind.js lines 826-853): returns the (possibly
unchanged) rocket location together with the drift distance; the source
returns `undefined` (here `none`) and leaves the location untouched when
the descent rate is `NaN` or zero. -/
noncomputable def driftWithWind (rocketLocation : GeoLocation)
    (windSpeed windDirection : ℝ) (decentRate : JsNum)
    (descentDistance : ℝ) : GeoLocation × Option ℝ :=
  if decentRate.jsIsNaN || decide (decentRate = .num 0) then
    (rocketLocation, none)
  else
    let rate := |decentRate.toReal|
    let decentDuration := descentDistance / rate
    let driftDistance := decentDuration * (windSpeed * 1.68781)
    let invertedDirection :=
      if windDirection < 180 then windDirection + 180 else windDirection - 180
    (moveAlongBearingKilometers rocketLocation (feetToMeters driftDistance)
        invertedDirection,
      some driftDistance)

/-- Ascending-altitude order on wind samples. -/
def altLE (a b : WindAtAltitude) : Prop := a.altitude ≤ b.altitude

instance : DecidableRel altLE := fun a b => by
  unfold altLE; infer_instance

/-! ## Helper lemmas -/

theorem qabs_nonneg (x : ℚ) : 0 ≤ qabs x := by
  unfold qabs; split <;> linarith

theorem qabs_of_nonneg {x : ℚ} (h : 0 ≤ x) : qabs x = x := by
  unfold qabs; split <;> linarith

theorem qabs_of_nonpos {x : ℚ} (h : x ≤ 0) : qabs x = -x := by
  unfold qabs
  rcases lt_or_eq_of_le h with h' | h'
  · rw [if_pos h']
  · subst h'; simp

theorem qabs_eq_zero {x : ℚ} : qabs x = 0 ↔ x = 0 := by
  unfold qabs; split <;> constructor <;> intro h <;> linarith

theorem qabs_sub_comm (x y : ℚ) : qabs (x - y) = qabs (y - x) := by
  unfold qabs; split <;> split <;> linarith

/-- On a list that is sorted ascending by altitude, the walk-until-`break`
of the fusion engine collects exactly the samples strictly below the
cutoff. -/
theorem takeWhile_eq_filter_of_sorted (c : ℚ) :
    ∀ {l : List WindAtAltitude}, List.Pairwise altLE l →
      l.takeWhile (fun w => w.altitude < c) =
        l.filter (fun w => w.altitude < c) := by
  intro l h
  induction l with
  | nil => rfl
  | cons a t ih =>
    rw [List.pairwise_cons] at h
    by_cases hc : a.altitude < c
    · simp only [List.takeWhile_cons, List.filter_cons]
      rw [if_pos (by simpa using hc), if_pos (by simpa using hc), ih h.2]
    · simp only [List.takeWhile_cons, List.filter_cons]
      rw [if_neg (by simpa using hc), if_neg (by simpa using hc)]
      rw [eq_comm, List.filter_eq_nil_iff]
      intro w hw
      have := h.1 w hw
      unfold altLE at this
      simp only [decide_eq_true_eq]
      intro hcontra
      exact hc (lt_of_le_of_lt this hcontra)

/-- The scan for the first above-ground pressure sample fails when no
sample is above ground. -/
theorem findAboveGround_eq_none (prev : WindAtAltitude)
    {l : List WindAtAltitude} (h : ∀ w ∈ l, w.altitude ≤ 0) :
    findAboveGround prev l = none := by
  induction l generalizing prev with
  | nil => rfl
  | cons w t ih =>
    unfold findAboveGround
    rw [if_neg (by simpa using not_lt_of_le (h w (by simp)))]
    exact ih _ fun x hx => h x (by simp [hx])

/-- The scan for the first above-ground pressure sample, on a list that
splits as at-or-below-ground samples followed by an above-ground sample,
stops at that sample and interpolates against its predecessor. -/
theorem findAboveGround_spec (prev b : WindAtAltitude)
    (l₂ : List WindAtAltitude) :
    ∀ (l₁ : List WindAtAltitude), (∀ w ∈ l₁, w.altitude ≤ 0) →
      0 < b.altitude →
      findAboveGround prev (l₁ ++ b :: l₂) =
        some (interpGroundSpeed (l₁.getLastD prev) b,
          interpGroundDir (l₁.getLastD prev) b, b :: l₂) := by
  intro l₁
  induction l₁ generalizing prev with
  | nil =>
    intro _ hb
    unfold findAboveGround
    simp [hb]
  | cons x t ih =>
    intro h1 hb
    have hx : x.altitude ≤ 0 := h1 x (by simp)
    show findAboveGround prev ((x :: t) ++ b :: l₂) = _
    rw [List.cons_append]
    unfold findAboveGround
    rw [if_neg (by simpa using not_lt_of_le hx)]
    rw [ih x (fun w hw => h1 w (by simp [hw])) hb]
    cases t with
    | nil => simp
    | cons y t' =>
      obtain ⟨z, hz⟩ := Option.ne_none_iff_exists'.mp
        (by simp [List.getLast?_eq_none_iff] : (y :: t').getLast? ≠ none)
      simp [hz]

/-- A successful scan returns a suffix of the scanned list headed by an
above-ground sample. -/
theorem findAboveGround_suffix {prev : WindAtAltitude}
    {l above : List WindAtAltitude} {gs gd : ℚ}
    (h : findAboveGround prev l = some (gs, gd, above)) :
    above.IsSuffix l ∧ ∃ b l₂, above = b :: l₂ ∧ 0 < b.altitude := by
  induction l generalizing prev with
  | nil => simp [findAboveGround] at h
  | cons w t ih =>
    unfold findAboveGround at h
    by_cases hw : 0 < w.altitude
    · rw [if_pos hw] at h
      simp only [Option.some.injEq, Prod.mk.injEq] at h
      obtain ⟨-, -, h3⟩ := h
      exact ⟨h3 ▸ List.suffix_refl (w :: t), w, t, h3.symm, hw⟩
    · rw [if_neg hw] at h
      obtain ⟨hsuf, hrest⟩ := ih h
      exact ⟨hsuf.trans (List.suffix_cons w t), hrest⟩

/-! ## Claim theorems -/

/-- Shared helper: the shape of the fused list when the lowest pressure
sample is strictly above ground, for a sorted altitude list. -/
theorem fuse_above_ground_eq (altW : List WindAtAltitude)
    (p0 : WindAtAltitude) (ps : List WindAtAltitude)
    (ha : List.Pairwise altLE altW)
    (h0 : 0 < p0.altitude) :
    fuseWinds altW (p0 :: ps) =
      ((⟨0, ((altW.filter (fun w => w.altitude < p0.altitude)).headD
              p0).windSpeed,
          ((altW.filter (fun w => w.altitude < p0.altitude)).headD
              p0).windDirection⟩ : WindAtAltitude) ::
          (altW.filter (fun w => w.altitude < p0.altitude) ++ (p0 :: ps)),
        ((altW.filter (fun w => w.altitude < p0.altitude)).headD
            p0).windSpeed,
        ((altW.filter (fun w => w.altitude < p0.altitude)).headD
            p0).windDirection) := by
  show (if 0 < p0.altitude then _ else _) = _
  rw [if_pos h0, takeWhile_eq_filter_of_sorted _ ha]
  cases hfe : altW.filter (fun w => w.altitude < p0.altitude) with
  | nil => simp
  | cons a t => simp

/-- C1.  For every fusion input with a non-empty pressure list sorted
ascending by altitude whose lowest sample is strictly above ground, the
fused wind list is: a synthesized altitude-0 sample copying the speed and
direction of the first altitude sample strictly below the lowest pressure
altitude (or of the first pressure sample when no altitude sample
qualifies), then every altitude sample strictly below the lowest pressure
altitude in their ascending order, then all pressure samples in order.
Both input lists are sorted ascending, as the fusion engine's inputs are
specified to be. -/
theorem fuse_above_ground_spec (altW : List WindAtAltitude)
    (p0 : WindAtAltitude) (ps : List WindAtAltitude)
    (ha : List.Pairwise altLE altW)
    (_hp : List.Pairwise altLE (p0 :: ps))
    (h0 : 0 < p0.altitude) :
    fuseWinds altW (p0 :: ps) =
      ((⟨0, ((altW.filter (fun w => w.altitude < p0.altitude)).headD
              p0).windSpeed,
          ((altW.filter (fun w => w.altitude < p0.altitude)).headD
              p0).windDirection⟩ : WindAtAltitude) ::
          (altW.filter (fun w => w.altitude < p0.altitude) ++ (p0 :: ps)),
        ((altW.filter (fun w => w.altitude < p0.altitude)).headD
            p0).windSpeed,
        ((altW.filter (fun w => w.altitude < p0.altitude)).headD
            p0).windDirection) :=
  fuse_above_ground_eq altW p0 ps ha h0

/-- Witness for C1 at the specification's own example: pressure samples
(500 ft, 10 kt, 90 deg) and (1500 ft, 15 kt, 100 deg) with the single
altitude sample (100 ft, 8 kt, 80 deg). -/
theorem fuse_above_ground_witness :
    fuseWinds [⟨100, 8, 80⟩] [⟨500, 10, 90⟩, ⟨1500, 15, 100⟩] =
      ([⟨0, 8, 80⟩, ⟨100, 8, 80⟩, ⟨500, 10, 90⟩, ⟨1500, 15, 100⟩],
        8, 80) := by
  have h := fuse_above_ground_spec [⟨100, 8, 80⟩] ⟨500, 10, 90⟩
    [⟨1500, 15, 100⟩] (by simp)
    (by norm_num [List.pairwise_cons, altLE]) (by norm_num)
  rw [h]
  norm_num [List.filter_cons]

/-- C2 (recording the code's actual behaviour at the specification's test
input).  For pressure samples (-50 ft, 10 kt, 350 deg) and
(50 ft, 14 kt, 10 deg), the fusion engine synthesizes the ground sample
with direction exactly 180 (and speed 12): the -180-degree shift performed
in the at-least-180 branch cancels against the +180 added back, so the
interpolation never takes the short arc through North that the
specification expects (a result near 0). -/
theorem fuse_ground_direction_bug_eval :
    fuseWinds [] [⟨-50, 10, 350⟩, ⟨50, 14, 10⟩] =
      ([⟨0, 12, 180⟩, ⟨50, 14, 10⟩], 12, 180) := by
  norm_num [fuseWinds, findAboveGround, interpGroundSpeed, interpGroundDir,
    qabs]

/-- The shift-by-minus-180 branch of the ground direction interpolation is
algebraically the same linear interpolation from the smaller direction
toward the larger as the plain branch: for every bracketing pair the
result is the minimum direction plus the fraction of the absolute delta,
never a short-arc (wrap-aware) value. -/
theorem interpGroundDir_never_wraps (a b : WindAtAltitude) :
    interpGroundDir a b =
      min a.windDirection b.windDirection +
        qabs a.altitude / (b.altitude - a.altitude) *
          qabs (b.windDirection - a.windDirection) := by
  simp only [interpGroundDir]
  split_ifs with h1 h2 h3 h4
  · rw [qabs_eq_zero] at h1
    have : b.windDirection = a.windDirection := by linarith
    simp [this, h1, qabs_eq_zero.mpr]
  · rw [min_eq_right h3.le]
  · rw [min_eq_left (not_lt.mp h3)]
  · rw [min_eq_left (by linarith : a.windDirection ≤ b.windDirection),
      qabs_sub_comm]
    ring_nf
  · rw [min_eq_right (by linarith : b.windDirection ≤ a.windDirection),
      qabs_sub_comm]
    ring_nf

/-- C10.  When the pressure list is non-empty but contains no sample with
altitude strictly above ground, fusion returns an empty wind list and
ground wind speed and direction both 0: no ground sample is synthesized
and every pressure sample is discarded. -/
theorem fuse_all_below_ground (altW : List WindAtAltitude)
    (p0 : WindAtAltitude) (ps : List WindAtAltitude)
    (h : ∀ w ∈ p0 :: ps, w.altitude ≤ 0) :
    fuseWinds altW (p0 :: ps) = ([], 0, 0) := by
  show (if 0 < p0.altitude then _ else _) = _
  rw [if_neg (by simpa using not_lt_of_le (h p0 (by simp)))]
  rw [findAboveGround_eq_none p0 fun w hw => h w (by simp [hw])]

/-- Witness for C10: a single pressure sample at -10 ft fuses to the empty
profile with zero ground values. -/
theorem fuse_all_below_ground_witness :
    fuseWinds [] [⟨-10, 5, 90⟩] = ([], 0, 0) := by
  exact fuse_all_below_ground [] ⟨-10, 5, 90⟩ []
    (by norm_num)

/-- The min-plus-fraction form of the ground speed interpolation: for
every bracketing pair the interpolated speed is the smaller of the two
speeds plus the fraction of the absolute speed delta. -/
theorem interpGroundSpeed_eq_min_add (a b : WindAtAltitude) :
    interpGroundSpeed a b =
      min a.windSpeed b.windSpeed +
        qabs a.altitude / (b.altitude - a.altitude) *
          qabs (b.windSpeed - a.windSpeed) := by
  simp only [interpGroundSpeed]
  split_ifs with h1 h2
  · rw [qabs_eq_zero] at h1
    have : b.windSpeed = a.windSpeed := by linarith
    simp [this, qabs_eq_zero.mpr]
  · rw [min_eq_right h2.le]
    ring_nf
  · rw [min_eq_left (not_lt.mp h2)]
    ring_nf

/-- C3.  When the pressure list starts with at-or-below-ground samples and
`b` is the first sample strictly above ground (with predecessor `a`), the
synthesized ground speed is `min(v[i-1], v[i])` plus the ratio
`|altitude[i-1]| / (altitude[i] - altitude[i-1])` times the absolute speed
delta, and the ratio's denominator is strictly positive (so the division
is well defined). -/
theorem fuse_ground_speed_spec (altW : List WindAtAltitude)
    (ps₁ : List WindAtAltitude) (a b : WindAtAltitude)
    (ps₂ : List WindAtAltitude)
    (h1 : ∀ w ∈ ps₁, w.altitude ≤ 0)
    (ha : a.altitude ≤ 0) (hb : 0 < b.altitude) :
    0 < b.altitude - a.altitude ∧
      (fuseWinds altW (ps₁ ++ a :: b :: ps₂)).2.1 =
        min a.windSpeed b.windSpeed +
          qabs a.altitude / (b.altitude - a.altitude) *
            qabs (b.windSpeed - a.windSpeed) := by
  refine ⟨by linarith, ?_⟩
  rw [← interpGroundSpeed_eq_min_add]
  cases ps₁ with
  | nil =>
    show (fuseWinds altW (a :: b :: ps₂)).2.1 = _
    show ((if 0 < a.altitude then _ else _ :
        List WindAtAltitude × ℚ × ℚ)).2.1 = _
    rw [if_neg (not_lt_of_le ha)]
    have hfa := findAboveGround_spec a b ps₂ [] (by simp) hb
    rw [List.nil_append] at hfa
    rw [hfa]
    simp
  | cons q qs =>
    have hq : q.altitude ≤ 0 := h1 q (by simp)
    show (fuseWinds altW ((q :: qs) ++ a :: b :: ps₂)).2.1 = _
    rw [List.cons_append]
    show ((if 0 < q.altitude then _ else _ :
        List WindAtAltitude × ℚ × ℚ)).2.1 = _
    rw [if_neg (not_lt_of_le hq)]
    have hsplit : qs ++ a :: b :: ps₂ = (qs ++ [a]) ++ b :: ps₂ := by simp
    rw [hsplit, findAboveGround_spec q b ps₂ (qs ++ [a])
      (by
        intro w hw
        rcases List.mem_append.mp hw with h | h
        · exact h1 w (by simp [h])
        · simp at h
          exact h ▸ ha) hb]
    simp [List.getLastD_concat]

/-- Witness for C3 at the specification's ground-overlap example: pressure
samples (-50 ft, 10 kt, 350 deg) and (50 ft, 14 kt, 10 deg) give a
positive denominator of 100 and a ground speed of 12 kt. -/
theorem fuse_ground_speed_witness :
    (0 : ℚ) < (⟨50, 14, 10⟩ : WindAtAltitude).altitude -
        (⟨-50, 10, 350⟩ : WindAtAltitude).altitude ∧
      (fuseWinds [] ([] ++ (⟨-50, 10, 350⟩ : WindAtAltitude) ::
          (⟨50, 14, 10⟩ : WindAtAltitude) :: [])).2.1 =
        min (10 : ℚ) 14 + qabs (-50) / (50 - -50) * qabs (14 - 10) := by
  have h := fuse_ground_speed_spec [] [] ⟨-50, 10, 350⟩ ⟨50, 14, 10⟩ []
    (by simp) (by norm_num) (by norm_num)
  exact h

/-- C4 counterexample.  With both input lists sorted ascending (they are
singletons) but an altitude sample below ground, the fused list is NOT
non-decreasing in altitude: the synthesized ground sample at altitude 0 is
followed by the altitude sample at -10. -/
theorem fused_ascending_cex :
    List.Pairwise altLE [(⟨-10, 5, 90⟩ : WindAtAltitude)] ∧
      List.Pairwise altLE [(⟨100, 10, 90⟩ : WindAtAltitude)] ∧
      fuseWinds [⟨-10, 5, 90⟩] [⟨100, 10, 90⟩] =
        ([⟨0, 5, 90⟩, ⟨-10, 5, 90⟩, ⟨100, 10, 90⟩], 5, 90) ∧
      ¬ List.Chain' altLE
          [(⟨0, 5, 90⟩ : WindAtAltitude), ⟨-10, 5, 90⟩, ⟨100, 10, 90⟩] := by
  refine ⟨by simp, by simp, ?_, ?_⟩
  · norm_num [fuseWinds, List.takeWhile]
  · intro hch
    rw [List.chain'_cons] at hch
    have h := hch.1
    unfold altLE at h
    norm_num at h

/-- C4, amended.  For sorted inputs whose altitude samples all lie at or
above ground, the fused wind list is non-decreasing in altitude and, when
non-empty, starts with a sample at altitude 0. -/
theorem fused_ascending (altW pW : List WindAtAltitude)
    (ha : List.Pairwise altLE altW)
    (hp : List.Pairwise altLE pW)
    (hnn : ∀ w ∈ altW, 0 ≤ w.altitude) :
    List.Chain' altLE (fuseWinds altW pW).1 ∧
      ((fuseWinds altW pW).1 ≠ [] →
        ((fuseWinds altW pW).1.headD defaultWind).altitude = 0) := by
  cases pW with
  | nil => simp [fuseWinds]
  | cons p0 ps =>
    by_cases h0 : 0 < p0.altitude
    · rw [fuse_above_ground_eq altW p0 ps ha h0]
      have hcases : altW.filter (fun w => w.altitude < p0.altitude) = [] ∨
          ∃ x t, altW.filter (fun w => w.altitude < p0.altitude) = x :: t := by
        cases altW.filter (fun w => w.altitude < p0.altitude) with
        | nil => exact Or.inl rfl
        | cons x t => exact Or.inr ⟨x, t, rfl⟩
      rcases hcases with hfil | ⟨x, t, hfil⟩
      · rw [hfil]
        refine ⟨?_, fun _ => rfl⟩
        rw [List.nil_append, List.chain'_cons']
        refine ⟨?_, hp.chain'⟩
        intro y hy
        simp only [List.head?_cons, Option.mem_def, Option.some.injEq] at hy
        subst hy
        exact le_of_lt h0
      · rw [hfil]
        refine ⟨?_, fun _ => rfl⟩
        rw [List.chain'_cons']
        have hxmem : x ∈ altW.filter (fun w => w.altitude < p0.altitude) := by
          rw [hfil]; simp
        have hxfil := List.mem_filter.mp hxmem
        refine ⟨?_, ?_⟩
        · intro y hy
          simp only [List.cons_append, List.head?_cons, Option.mem_def,
            Option.some.injEq] at hy
          subst hy
          exact hnn x hxfil.1
        · rw [List.chain'_append]
          refine ⟨?_, hp.chain', ?_⟩
          · rw [← hfil]
            exact ((ha.filter _)).chain'
          · intro z hz y hy
            simp only [List.head?_cons, Option.mem_def,
              Option.some.injEq] at hy
            subst hy
            have hzmem : z ∈ altW.filter (fun w => w.altitude < p0.altitude) := by
              rw [hfil]
              exact List.mem_of_mem_getLast? hz
            have hzfil := List.mem_filter.mp hzmem
            have : z.altitude < p0.altitude := by simpa using hzfil.2
            exact le_of_lt this
    · have hshape : fuseWinds altW (p0 :: ps) =
          (match findAboveGround p0 ps with
            | none => ([], 0, 0)
            | some (gs, gd, above) =>
              (⟨0, gs, gd⟩ :: above, gs, gd)) := by
        show (if 0 < p0.altitude then _ else _) = _
        rw [if_neg h0]
      rw [hshape]
      cases hfa : findAboveGround p0 ps with
      | none => simp
      | some res =>
        obtain ⟨gs, gd, above⟩ := res
        obtain ⟨hsuf, b, l₂, habove, hb⟩ := findAboveGround_suffix hfa
        subst habove
        refine ⟨?_, fun _ => rfl⟩
        rw [List.chain'_cons']
        refine ⟨?_, ?_⟩
        · intro y hy
          simp only [List.head?_cons, Option.mem_def, Option.some.injEq] at hy
          subst hy
          exact le_of_lt hb
        · exact (((List.pairwise_cons.mp hp).2).sublist hsuf.sublist).chain'

/-- Witness for C4 at the specification's no-overlap example. -/
theorem fused_ascending_witness :
    List.Chain' altLE
        (fuseWinds [⟨100, 8, 80⟩] [⟨500, 10, 90⟩, ⟨1500, 15, 100⟩]).1 ∧
      ((fuseWinds [⟨100, 8, 80⟩]
            [⟨500, 10, 90⟩, ⟨1500, 15, 100⟩]).1.headD defaultWind).altitude
        = 0 := by
  have h := fused_ascending [⟨100, 8, 80⟩] [⟨500, 10, 90⟩, ⟨1500, 15, 100⟩]
    (by simp) (by norm_num [List.pairwise_cons, altLE]) (by norm_num)
  refine ⟨h.1, h.2 ?_⟩
  norm_num [fuseWinds, List.takeWhile]
  simp

/-- C5.  The band-location operation returns the sentinel -1 exactly when
the floor index is out of bounds, the rocket altitude is below the floor or
above the ceiling, or the band has zero altitude delta; otherwise it
returns the fractional position of the rocket inside the band.  The
embedding is a total function, so no exception is possible. -/
theorem getWindBandPercentage_spec (r : ℚ)
    (windData : List WindAtAltitude) (i : ℤ) :
    (getWindBandPercentage r windData i = -1 ↔
      (i < 0 ∨ (windData.length : ℤ) ≤ i + 1 ∨
        r < (nthWind windData i.toNat).altitude ∨
        (nthWind windData (i.toNat + 1)).altitude < r ∨
        (nthWind windData (i.toNat + 1)).altitude =
          (nthWind windData i.toNat).altitude)) ∧
      (¬(i < 0 ∨ (windData.length : ℤ) ≤ i + 1 ∨
          r < (nthWind windData i.toNat).altitude ∨
          (nthWind windData (i.toNat + 1)).altitude < r ∨
          (nthWind windData (i.toNat + 1)).altitude =
            (nthWind windData i.toNat).altitude) →
        getWindBandPercentage r windData i =
          (r - (nthWind windData i.toNat).altitude) /
            ((nthWind windData (i.toNat + 1)).altitude -
              (nthWind windData i.toNat).altitude)) := by
  obtain ⟨f, hf⟩ : ∃ f, (nthWind windData i.toNat).altitude = f := ⟨_, rfl⟩
  obtain ⟨c, hc⟩ : ∃ c, (nthWind windData (i.toNat + 1)).altitude = c :=
    ⟨_, rfl⟩
  simp only [getWindBandPercentage, hf, hc]
  by_cases h1 : i < 0 ∨ (windData.length : ℤ) ≤ i + 1
  · rw [if_pos h1]
    exact ⟨iff_of_true rfl (by tauto), fun hn => absurd (by tauto) hn⟩
  · rw [if_neg h1]
    by_cases h2 : r < f ∨ c < r
    · rw [if_pos h2]
      exact ⟨iff_of_true rfl (by tauto), fun hn => absurd (by tauto) hn⟩
    · rw [if_neg h2]
      push_neg at h2
      by_cases h3 : c = f
      · rw [if_pos (by rw [h3]; simp [qabs])]
        exact ⟨iff_of_true rfl (by tauto), fun hn => absurd (by tauto) hn⟩
      · have hfc : f < c :=
          lt_of_le_of_ne (h2.1.trans h2.2) (Ne.symm h3)
        have hqc : qabs (c - f) = c - f := qabs_of_nonneg (by linarith)
        have hqr : qabs (r - f) = r - f := qabs_of_nonneg (by linarith)
        rw [if_neg (by rw [hqc]; intro h; exact h3 (by linarith))]
        constructor
        · apply iff_of_false
          · rw [hqc, hqr]
            intro habs
            have hpos : (0 : ℚ) ≤ (r - f) / (c - f) :=
              div_nonneg (by linarith) (by linarith)
            rw [habs] at hpos
            linarith
          · push_neg at h1
            rintro (h | h | h | h | h)
            · exact absurd h (not_lt.mpr h1.1)
            · exact absurd h (not_le.mpr h1.2)
            · exact absurd h (not_lt.mpr h2.1)
            · exact absurd h (not_lt.mpr h2.2)
            · exact h3 h
        · intro _
          rw [hqc, hqr]

/-- Witness for C5: for the profile with samples at 0 ft and 100 ft,
rocket altitudes -5 (below the band) and 150 (above the band) both produce
the sentinel, while altitude 50 produces the fraction one half. -/
theorem getWindBandPercentage_witness :
    getWindBandPercentage (-5) [⟨0, 1, 2⟩, ⟨100, 3, 4⟩] 0 = -1 ∧
      getWindBandPercentage 150 [⟨0, 1, 2⟩, ⟨100, 3, 4⟩] 0 = -1 ∧
      getWindBandPercentage 50 [⟨0, 1, 2⟩, ⟨100, 3, 4⟩] 0 = 1 / 2 := by
  refine ⟨?_, ?_, ?_⟩
  · exact (getWindBandPercentage_spec (-5) [⟨0, 1, 2⟩, ⟨100, 3, 4⟩] 0).1.mpr
      (by norm_num [nthWind])
  · exact (getWindBandPercentage_spec 150 [⟨0, 1, 2⟩, ⟨100, 3, 4⟩] 0).1.mpr
      (by norm_num [nthWind])
  · have h := (getWindBandPercentage_spec 50 [⟨0, 1, 2⟩, ⟨100, 3, 4⟩] 0).2
      (by norm_num [nthWind])
    rw [h]
    norm_num [nthWind]

/-- C6.  For every bandPercentage in [0, 1] and in-bounds floor index, the
reported band average speed is the mean of the floor speed and the
fractionally interpolated speed, not the interpolated speed alone. -/
theorem getAverageWindSpeed_spec (p : ℚ)
    (windData : List WindAtAltitude) (i : ℤ)
    (h0 : 0 ≤ p) (h1 : p ≤ 1) (h2 : 0 ≤ i)
    (h3 : i + 1 < (windData.length : ℤ)) :
    getAverageWindSpeed p windData i =
      ((nthWind windData i.toNat).windSpeed +
        ((nthWind windData i.toNat).windSpeed +
          p * ((nthWind windData (i.toNat + 1)).windSpeed -
            (nthWind windData i.toNat).windSpeed))) / 2 := by
  simp only [getAverageWindSpeed]
  rw [if_neg (by push_neg; exact ⟨h0, h1⟩),
    if_neg (by push_neg; exact ⟨h2, h3⟩)]

/-- Witness for C6: floor speed 10 kt, ceiling speed 20 kt, halfway up the
band gives (10 + 15) / 2 = 12.5 kt rather than the interpolated 15 kt. -/
theorem getAverageWindSpeed_witness :
    getAverageWindSpeed (1 / 2) [⟨0, 10, 0⟩, ⟨100, 20, 0⟩] 0 = 25 / 2 := by
  have h := getAverageWindSpeed_spec (1 / 2) [⟨0, 10, 0⟩, ⟨100, 20, 0⟩] 0
    (by norm_num) (by norm_num) (by norm_num) (by norm_num)
  rw [h]
  norm_num [nthWind]

/-- C7.  A drift step with a zero or NaN descent rate leaves the rocket
location unchanged and signals the no-op by returning no drift distance
(the source returns `undefined`); the division by the descent rate in the
other branch is never reached. -/
theorem driftWithWind_noop (loc : GeoLocation) (ws wd : ℝ)
    (rate : JsNum) (dist : ℝ)
    (h : rate = JsNum.nan ∨ rate = JsNum.num 0) :
    driftWithWind loc ws wd rate dist = (loc, none) := by
  rcases h with h | h <;> subst h <;>
    simp [driftWithWind, JsNum.jsIsNaN]

/-- Witness for C7: a zero descent rate at the origin with a 5 kt wind
from 90 degrees over a 100 ft band moves nothing and returns no
distance. -/
theorem driftWithWind_noop_witness :
    driftWithWind ⟨0, 0⟩ 5 90 (JsNum.num 0) 100 = (⟨0, 0⟩, none) :=
  driftWithWind_noop ⟨0, 0⟩ 5 90 (JsNum.num 0) 100 (Or.inr rfl)

/-- C9 counterexample.  The `GeoLocation` constructor accepts latitude 100
(outside [-90, 90]) and even latitude Infinity, because its only guard is
`isNaN`; the claimed range and finiteness checks do not happen at
construction. -/
theorem geoLocationCtor_cex :
    geoLocationCtor (JsNum.num 100) (JsNum.num 0) =
        some (JsNum.num 100, JsNum.num 0) ∧
      ¬((100 : ℚ) ≤ 90) ∧
      geoLocationCtor JsNum.posInf (JsNum.num 0) =
        some (JsNum.posInf, JsNum.num 0) :=
  ⟨rfl, by norm_num, rfl⟩

/-- C9, amended.  The constructor itself succeeds exactly when neither
coordinate is NaN (out-of-range and infinite values are accepted); the
range and finiteness validation is performed by the caller
`getLaunchSiteLocation`, which produces a location exactly when the
latitude is a finite number in [-90, 90] and the longitude a finite number
in [-180, 180]. -/
theorem geoLocation_validation (lat lon : JsNum) :
    ((geoLocationCtor lat lon).isSome ↔
      lat.jsIsNaN = false ∧ lon.jsIsNaN = false) ∧
      ((getLaunchSiteLocation lat lon).isSome ↔
        ((∃ q : ℚ, lat = JsNum.num q ∧ -90 ≤ q ∧ q ≤ 90) ∧
          (∃ q : ℚ, lon = JsNum.num q ∧ -180 ≤ q ∧ q ≤ 180))) := by
  constructor
  · cases lat <;> cases lon <;>
      simp [geoLocationCtor, JsNum.jsIsNaN]
  · cases lat <;> cases lon <;>
      simp [getLaunchSiteLocation, geoLocationCtor, JsNum.jsIsNaN,
        JsNum.jsGt, JsNum.jsLt]
    rename_i a b
    constructor
    · intro h
      split_ifs at h with h1 h2
      · simp at h
      · simp at h
      · push_neg at h1 h2
        exact ⟨⟨h1.2, h1.1⟩, h2.2, h2.1⟩
    · rintro ⟨⟨ha1, ha2⟩, hb1, hb2⟩
      rw [if_neg (by push_neg; exact ⟨ha2, ha1⟩),
        if_neg (by push_neg; exact ⟨hb2, hb1⟩)]
      rfl

/-- C8 counterexample.  In the AGL export path with ground elevation 100,
the samples (50 ft, 10 kt, 350 deg) and (150 ft, 14 kt, 10 deg) adjust to
-50 ft and +50 ft; the synthesized zero-altitude row carries direction
265, while the fusion engine's ground interpolation at the same bracketing
pair (the formula the claim names) yields 180: the CSV synthesis does not
use the fusion engine's ground direction formula. -/
theorem csvRowsAGL_dir_cex :
    csvRowsAGL 100 [⟨50, 10, 350⟩, ⟨150, 14, 10⟩] =
        [(0, 12, 265), (50, 14, 10)] ∧
      interpGroundDir ⟨-50, 10, 350⟩ ⟨50, 14, 10⟩ = 180 ∧
      ((265 : ℚ) ≠ 180) := by
  refine ⟨?_, ?_, by norm_num⟩
  · norm_num [csvRowsAGL, qabs]
  · norm_num [interpGroundDir, qabs]

/-- The band-average direction of a two-sample profile at floor index 0,
with the guards discharged: exactly the floor-with-interpolated averaging
expression that the CSV AGL synthesis inlines. -/
theorem getAverageWindDirection_pair (p : ℚ) (a b : WindAtAltitude)
    (h0 : 0 ≤ p) (h1 : p ≤ 1) :
    getAverageWindDirection p [a, b] 0 =
      if qabs (a.windDirection -
          (a.windDirection + p * (b.windDirection - a.windDirection)))
          < 180 then
        (a.windDirection +
          (a.windDirection + p * (b.windDirection - a.windDirection))) / 2
      else
        if (a.windDirection +
              (a.windDirection + p * (b.windDirection - a.windDirection))
              - 360) / 2 < 0 then
          (a.windDirection +
              (a.windDirection + p * (b.windDirection - a.windDirection))
              - 360) / 2 + 360
        else
          (a.windDirection +
              (a.windDirection + p * (b.windDirection - a.windDirection))
              - 360) / 2 := by
  simp only [getAverageWindDirection]
  rw [if_neg (by push_neg; exact ⟨h0, h1⟩), if_neg (by norm_num)]
  rfl

/-- C8, amended.  In the AGL export path, a sample whose adjusted altitude
is negative is dropped when it is the last sample, skipped when the next
sample's adjusted altitude is also negative, and otherwise replaced by a
single zero-altitude row whose speed is linearly interpolated toward the
next sample and whose direction is computed by the band-average direction
formula `getAverageWindDirection` of section 4.3, not by the fusion
engine's ground interpolation of section 4.2. -/
theorem csvRowsAGL_cases (elev : ℚ) (w w' : WindAtAltitude)
    (rest : List WindAtAltitude) :
    (w.altitude - elev < 0 → csvRowsAGL elev [w] = []) ∧
      (w.altitude - elev < 0 → w'.altitude - elev < 0 →
        csvRowsAGL elev (w :: w' :: rest) = csvRowsAGL elev (w' :: rest)) ∧
      (w.altitude - elev < 0 → 0 ≤ w'.altitude - elev →
        csvRowsAGL elev (w :: w' :: rest) =
          (0,
            w.windSpeed +
              qabs ((w.altitude - elev) /
                  ((w'.altitude - elev) - (w.altitude - elev))) *
                (w'.windSpeed - w.windSpeed),
            getAverageWindDirection
              (qabs ((w.altitude - elev) /
                ((w'.altitude - elev) - (w.altitude - elev))))
              [⟨w.altitude - elev, w.windSpeed, w.windDirection⟩,
                ⟨w'.altitude - elev, w'.windSpeed, w'.windDirection⟩] 0) ::
            csvRowsAGL elev (w' :: rest)) := by
  refine ⟨?_, ?_, ?_⟩
  · intro h1
    simp only [csvRowsAGL]
    rw [if_pos h1]
  · intro h1 h2
    simp only [csvRowsAGL]
    rw [if_pos h1, if_pos h2]
  · intro h1 h2
    have hba : 0 < (w'.altitude - elev) - (w.altitude - elev) := by linarith
    have hdivle : (w.altitude - elev) /
        ((w'.altitude - elev) - (w.altitude - elev)) ≤ 0 :=
      div_nonpos_iff.mpr (Or.inr ⟨le_of_lt h1, le_of_lt hba⟩)
    have hfr0 : 0 ≤ qabs ((w.altitude - elev) /
        ((w'.altitude - elev) - (w.altitude - elev))) := qabs_nonneg _
    have hfr1 : qabs ((w.altitude - elev) /
        ((w'.altitude - elev) - (w.altitude - elev))) ≤ 1 := by
      rw [qabs_of_nonpos hdivle, ← neg_div]
      rw [div_le_one hba]
      linarith
    rw [getAverageWindDirection_pair _ _ _ hfr0 hfr1]
    show (if w.altitude - elev < 0 then _ else _) = _
    rw [if_pos h1]
    show (if w'.altitude - elev < 0 then _ else _) = _
    rw [if_neg (not_lt.mpr h2)]

/-- Witness for C8 at the counterexample input: the synthesized row is
produced with the band-average direction formula, which evaluates to
265 there. -/
theorem csvRowsAGL_cases_witness :
    csvRowsAGL 100 [⟨50, 10, 350⟩, ⟨150, 14, 10⟩] =
        [(0, 12, 265), (50, 14, 10)] ∧
      getAverageWindDirection (1 / 2)
          [⟨-50, 10, 350⟩, ⟨50, 14, 10⟩] 0 = 265 := by
  have h := (csvRowsAGL_cases 100 ⟨50, 10, 350⟩ ⟨150, 14, 10⟩ []).2.2
    (by norm_num) (by norm_num)
  constructor
  · rw [h]
    norm_num [qabs, getAverageWindDirection, nthWind, csvRowsAGL]
  · norm_num [getAverageWindDirection, nthWind, qabs]

end OpenRocketWind
